import Mathlib

/-!
Verification of the icon-annotator plugin geometry and workflows.

The definitions below are a shallow embedding of the two shipped variants of
the plugin: the compiled build (src/code.js) and the TypeScript source
(src/unnamed/part_000).  Coordinates are modelled as rationals; the host
(canvas object model) is modelled explicitly: a scene node carries its
absolute position, size and the chain of its ancestors up to (excluding)
the page root.  JavaScript Array.prototype.sort with a numeric comparator
is modelled as a stable insertion sort, as required by ES2019.
-/

namespace IconAnnotator

/-- Cardinal directions, in the fixed enumeration order used by the code. -/
inductive Direction
  | left
  | right
  | top
  | bottom
deriving DecidableEq, Repr

/-- Node kinds relevant to the plugin control flow. -/
inductive NodeType
  | frame
  | group
  | inst
  | component
  | rectangle
  | text
deriving DecidableEq, Repr

/-- An ancestor in the parent chain of a scene node: its kind and its
absolute bounds (absoluteTransform translation plus width/height). -/
structure Anc where
  ntype : NodeType
  x : ℚ
  y : ℚ
  width : ℚ
  height : ℚ
deriving DecidableEq, Repr

/-- A scene node: id, display name, kind, absolute position
(absoluteTransform[0][2], absoluteTransform[1][2]), size, and the parent
chain from the immediate parent upward, excluding the page root (the while
loop in getOutermostFrame stops upon reaching the page). -/
structure SceneNode where
  id : String
  name : String
  ntype : NodeType
  x : ℚ
  y : ℚ
  width : ℚ
  height : ℚ
  ancestors : List Anc
deriving DecidableEq, Repr

/-- Embeds getOutermostFrame (code.js lines 36-45, part_000 lines 24-32):
walk the parent chain upward while the parent is not the page, remembering
the most recently seen FRAME ancestor; the fold visits ancestors from the
innermost outward, so the value remembered last is the outermost frame. -/
def getOutermostFrame (node : SceneNode) : Option Anc :=
  node.ancestors.foldl
    (fun outer a => if a.ntype = NodeType.frame then some a else outer) none

/-- Stable insertion of one (direction, value) entry into an already
sorted list: the entry goes after every element whose value is <= its own.
Together with sortGaps this models Array.prototype.sort with comparator
(a, b) => a.value - b.value, which ES2019 requires to be a stable sort. -/
def insGap (e : Direction × ℚ) : List (Direction × ℚ) → List (Direction × ℚ)
  | [] => [e]
  | x :: xs => if e.2 < x.2 then e :: x :: xs else x :: insGap e xs

/-- Stable sort of the gaps array by ascending value (code.js line 75). -/
def sortGaps (l : List (Direction × ℚ)) : List (Direction × ℚ) :=
  l.foldl (fun acc e => insGap e acc) []

/-- Result record of calculateGapAndDirection (code.js line 78). -/
structure GapResult where
  minDir : Direction
  minGap : ℚ
  x : ℚ
  y : ℚ
  gapLeft : ℚ
  gapRight : ℚ
  gapTop : ℚ
  gapBottom : ℚ
deriving DecidableEq, Repr

/-- Container bounds resolved by the compiled build (code.js lines 51-64):
the outermost frame when one exists, otherwise the bounds of the node
itself.  Returned as (leftBound, topBound, rightBound, bottomBound). -/
def boundsOf (node : SceneNode) : ℚ × ℚ × ℚ × ℚ :=
  match getOutermostFrame node with
  | some outer => (outer.x, outer.y, outer.x + outer.width, outer.y + outer.height)
  | none => (node.x, node.y, node.x + node.width, node.y + node.height)

/-- Embeds calculateGapAndDirection from the compiled build (code.js lines
47-79): four signed gaps from the element edges to the resolved container
bounds, then the first entry of the stably sorted gaps array. -/
def calculateGapAndDirection (node : SceneNode) : GapResult :=
  let x := node.x
  let y := node.y
  let b := boundsOf node
  let gapLeft := x - b.1
  let gapRight := b.2.2.1 - (x + node.width)
  let gapTop := y - b.2.1
  let gapBottom := b.2.2.2 - (y + node.height)
  let gaps := [(Direction.left, gapLeft), (Direction.right, gapRight),
               (Direction.top, gapTop), (Direction.bottom, gapBottom)]
  let first := (sortGaps gaps).headD (Direction.left, gapLeft)
  ⟨first.1, first.2, x, y, gapLeft, gapRight, gapTop, gapBottom⟩

/-- Container bounds resolved against the canvas when no frame ancestor
exists: origin 0,0 and the page size.  This is the fallback of the
TypeScript source calculateGapAndDirection (part_000 lines 41-44) and of
the realign loop in both variants (code.js lines 285-288). -/
def canvasBounds (pageW pageH : ℚ) (node : SceneNode) : ℚ × ℚ × ℚ × ℚ :=
  match getOutermostFrame node with
  | some outer => (outer.x, outer.y, outer.x + outer.width, outer.y + outer.height)
  | none => (0, 0, pageW, pageH)

/-- Embeds calculateGapAndDirection from the TypeScript source (part_000
lines 37-59); it differs from the compiled build only in the bounds
fallback, which uses the canvas bounds. -/
def calculateGapAndDirectionTS (pageW pageH : ℚ) (node : SceneNode) : GapResult :=
  let x := node.x
  let y := node.y
  let b := canvasBounds pageW pageH node
  let gapLeft := x - b.1
  let gapRight := b.2.2.1 - (x + node.width)
  let gapTop := y - b.2.1
  let gapBottom := b.2.2.2 - (y + node.height)
  let gaps := [(Direction.left, gapLeft), (Direction.right, gapRight),
               (Direction.top, gapTop), (Direction.bottom, gapBottom)]
  let first := (sortGaps gaps).headD (Direction.left, gapLeft)
  ⟨first.1, first.2, x, y, gapLeft, gapRight, gapTop, gapBottom⟩

/-- The gaps record built inside the realign loop (code.js lines 289-294),
with fields in the insertion order of the object literal. -/
structure Gaps4 where
  left : ℚ
  right : ℚ
  top : ℚ
  bottom : ℚ
deriving DecidableEq, Repr

/-- Embeds the gap recomputation of the realign loop (code.js lines
281-294): bounds come from the outermost frame, falling back to the canvas
bounds 0, 0, page width, page height. -/
def realignGaps (pageW pageH : ℚ) (icon : SceneNode) : Gaps4 :=
  let b := canvasBounds pageW pageH icon
  { left := icon.x - b.1
    right := b.2.2.1 - (icon.x + icon.width)
    top := icon.y - b.2.1
    bottom := b.2.2.2 - (icon.y + icon.height) }

/-- Embeds the direction selection of the realign loop (code.js line 295):
Object.entries lists the record entries in insertion order left, right,
top, bottom; the stably sorted first entry gives the direction. -/
def realignDir (pageW pageH : ℚ) (icon : SceneNode) : Direction :=
  let g := realignGaps pageW pageH icon
  ((sortGaps [(Direction.left, g.left), (Direction.right, g.right),
              (Direction.top, g.top), (Direction.bottom, g.bottom)]).headD
    (Direction.left, g.left)).1

/-- Specification-side selector: the direction whose gap is minimal, ties
resolved to the first in the fixed order left, right, top, bottom. -/
def firstMinDir (l r t b : ℚ) : Direction :=
  if l ≤ r ∧ l ≤ t ∧ l ≤ b then Direction.left
  else if r ≤ t ∧ r ≤ b then Direction.right
  else if t ≤ b then Direction.top
  else Direction.bottom

/-- Selects the gap of a given direction out of the four candidates. -/
def pick4 (d : Direction) (l r t b : ℚ) : ℚ :=
  match d with
  | Direction.left => l
  | Direction.right => r
  | Direction.top => t
  | Direction.bottom => b

theorem insGap_ne_nil (e : Direction × ℚ) (l : List (Direction × ℚ)) :
    insGap e l ≠ [] := by
  cases l with
  | nil => simp [insGap]
  | cons x xs =>
    by_cases h : e.2 < x.2 <;> simp [insGap, h]

theorem insGap_headD (e : Direction × ℚ) (l : List (Direction × ℚ))
    (d : Direction × ℚ) (h : l ≠ []) :
    (insGap e l).headD d = if e.2 < (l.headD d).2 then e else l.headD d := by
  cases l with
  | nil => exact absurd rfl h
  | cons x xs =>
    by_cases hc : e.2 < x.2 <;> simp [insGap, hc]

theorem sortGaps_four_headD (l r t b : ℚ) (d : Direction × ℚ) :
    (sortGaps [(Direction.left, l), (Direction.right, r),
               (Direction.top, t), (Direction.bottom, b)]).headD d
      = (firstMinDir l r t b, min (min (min l r) t) b) := by
  show (insGap (Direction.bottom, b) (insGap (Direction.top, t)
      (insGap (Direction.right, r) (insGap (Direction.left, l) [])))).headD d = _
  rw [insGap_headD _ _ _ (insGap_ne_nil _ _),
      insGap_headD _ _ _ (insGap_ne_nil _ _),
      insGap_headD _ _ _ (insGap_ne_nil _ _)]
  simp only [insGap, List.headD_cons]
  by_cases h1 : r < l
  · rw [if_pos h1]
    by_cases h2 : (Direction.top, t).2 < (Direction.right, r).2
    · rw [if_pos h2]
      dsimp only at h2 ⊢
      by_cases h3 : b < t
      · rw [if_pos h3]
        have hm : min (min (min l r) t) b = b := by
          simp only [min_def]; split_ifs <;> linarith
        have hd : firstMinDir l r t b = Direction.bottom := by
          unfold firstMinDir
          rw [if_neg (by rintro ⟨c1, c2, c3⟩; linarith),
              if_neg (by rintro ⟨c1, c2⟩; linarith),
              if_neg (by linarith)]
        rw [hd, hm]
      · rw [if_neg h3]
        have hm : min (min (min l r) t) b = t := by
          simp only [min_def]; split_ifs <;> linarith
        have hd : firstMinDir l r t b = Direction.top := by
          unfold firstMinDir
          rw [if_neg (by rintro ⟨c1, c2, c3⟩; linarith),
              if_neg (by rintro ⟨c1, c2⟩; linarith),
              if_pos (by linarith)]
        rw [hd, hm]
    · rw [if_neg h2]
      dsimp only at h2 ⊢
      by_cases h3 : b < r
      · rw [if_pos h3]
        have hm : min (min (min l r) t) b = b := by
          simp only [min_def]; split_ifs <;> linarith
        have hd : firstMinDir l r t b = Direction.bottom := by
          unfold firstMinDir
          rw [if_neg (by rintro ⟨c1, c2, c3⟩; linarith),
              if_neg (by rintro ⟨c1, c2⟩; linarith),
              if_neg (by linarith)]
        rw [hd, hm]
      · rw [if_neg h3]
        have hm : min (min (min l r) t) b = r := by
          simp only [min_def]; split_ifs <;> linarith
        have hd : firstMinDir l r t b = Direction.right := by
          unfold firstMinDir
          rw [if_neg (by rintro ⟨c1, c2, c3⟩; linarith),
              if_pos (⟨by linarith, by linarith⟩)]
        rw [hd, hm]
  · rw [if_neg h1]
    by_cases h2 : (Direction.top, t).2 < (Direction.left, l).2
    · rw [if_pos h2]
      dsimp only at h2 ⊢
      by_cases h3 : b < t
      · rw [if_pos h3]
        have hm : min (min (min l r) t) b = b := by
          simp only [min_def]; split_ifs <;> linarith
        have hd : firstMinDir l r t b = Direction.bottom := by
          unfold firstMinDir
          rw [if_neg (by rintro ⟨c1, c2, c3⟩; linarith),
              if_neg (by rintro ⟨c1, c2⟩; linarith),
              if_neg (by linarith)]
        rw [hd, hm]
      · rw [if_neg h3]
        have hm : min (min (min l r) t) b = t := by
          simp only [min_def]; split_ifs <;> linarith
        have hd : firstMinDir l r t b = Direction.top := by
          unfold firstMinDir
          rw [if_neg (by rintro ⟨c1, c2, c3⟩; linarith),
              if_neg (by rintro ⟨c1, c2⟩; linarith),
              if_pos (by linarith)]
        rw [hd, hm]
    · rw [if_neg h2]
      dsimp only at h2 ⊢
      by_cases h3 : b < l
      · rw [if_pos h3]
        have hm : min (min (min l r) t) b = b := by
          simp only [min_def]; split_ifs <;> linarith
        have hd : firstMinDir l r t b = Direction.bottom := by
          unfold firstMinDir
          rw [if_neg (by rintro ⟨c1, c2, c3⟩; linarith),
              if_neg (by rintro ⟨c1, c2⟩; linarith),
              if_neg (by linarith)]
        rw [hd, hm]
      · rw [if_neg h3]
        have hm : min (min (min l r) t) b = l := by
          simp only [min_def]; split_ifs <;> linarith
        have hd : firstMinDir l r t b = Direction.left := by
          unfold firstMinDir
          rw [if_pos (⟨by linarith, by linarith, by linarith⟩)]
        rw [hd, hm]

theorem pick4_firstMinDir (l r t b : ℚ) :
    pick4 (firstMinDir l r t b) l r t b = min (min (min l r) t) b := by
  unfold firstMinDir
  split_ifs with h1 h2 h3
  · obtain ⟨a1, a2, a3⟩ := h1
    simp only [pick4, min_def]; split_ifs <;> linarith
  · obtain ⟨a1, a2⟩ := h2
    have hrl : r < l := by
      rcases not_and_or.mp h1 with hc | hc
      · exact not_le.mp hc
      · rcases not_and_or.mp hc with hc2 | hc2
        · exact lt_of_le_of_lt a1 (not_le.mp hc2)
        · exact lt_of_le_of_lt a2 (not_le.mp hc2)
    simp only [pick4, min_def]; split_ifs <;> linarith
  · have htr : t < r := by
      rcases not_and_or.mp h2 with hc | hc
      · exact not_le.mp hc
      · exact lt_of_le_of_lt h3 (not_le.mp hc)
    have htl : t < l := by
      rcases not_and_or.mp h1 with hc | hc
      · exact htr.trans (not_le.mp hc)
      · rcases not_and_or.mp hc with hc2 | hc2
        · exact not_le.mp hc2
        · exact lt_of_le_of_lt h3 (not_le.mp hc2)
    simp only [pick4, min_def]; split_ifs <;> linarith
  · have hbt : b < t := not_le.mp h3
    have hbr : b < r := by
      rcases not_and_or.mp h2 with hc | hc
      · exact hbt.trans (not_le.mp hc)
      · exact not_le.mp hc
    have hbl : b < l := by
      rcases not_and_or.mp h1 with hc | hc
      · exact hbr.trans (not_le.mp hc)
      · rcases not_and_or.mp hc with hc2 | hc2
        · exact hbt.trans (not_le.mp hc2)
        · exact not_le.mp hc2
    simp only [pick4, min_def]; split_ifs <;> linarith

theorem frameFold_eq_getLast (l : List Anc) (init : Option Anc) :
    l.foldl (fun outer a => if a.ntype = NodeType.frame then some a else outer) init
      = ((l.filter fun a => a.ntype == NodeType.frame).getLast?).elim init some := by
  induction l using List.reverseRecOn generalizing init with
  | nil => rfl
  | append_singleton xs a ih =>
    rw [List.foldl_append, List.filter_append]
    by_cases ha : a.ntype = NodeType.frame
    · simp [ha, List.getLast?_concat]
    · simp only [List.foldl_cons, List.foldl_nil, if_neg ha, List.filter_cons,
        beq_iff_eq, ha, if_false, List.filter_nil, List.append_nil]
      exact ih init

theorem calc_minDir (node : SceneNode) :
    (calculateGapAndDirection node).minDir
      = firstMinDir (calculateGapAndDirection node).gapLeft
          (calculateGapAndDirection node).gapRight
          (calculateGapAndDirection node).gapTop
          (calculateGapAndDirection node).gapBottom := by
  simp only [calculateGapAndDirection]
  rw [sortGaps_four_headD]

theorem calc_minGap (node : SceneNode) :
    (calculateGapAndDirection node).minGap
      = min (min (min (calculateGapAndDirection node).gapLeft
            (calculateGapAndDirection node).gapRight)
            (calculateGapAndDirection node).gapTop)
          (calculateGapAndDirection node).gapBottom := by
  simp only [calculateGapAndDirection]
  rw [sortGaps_four_headD]

theorem realignDir_eq_firstMinDir (pageW pageH : ℚ) (icon : SceneNode) :
    realignDir pageW pageH icon
      = firstMinDir (realignGaps pageW pageH icon).left
          (realignGaps pageW pageH icon).right
          (realignGaps pageW pageH icon).top
          (realignGaps pageW pageH icon).bottom := by
  simp only [realignDir]
  rw [sortGaps_four_headD]

/-- Fixed label padding constant of createAnnotationGroup (code.js line 83). -/
def labelPadding : ℚ := 66

/-- Connector length produced by createAnnotationGroup (code.js lines
84-142): an initial value max(minGap + labelPadding, 60) that every one of
the four direction branches overwrites with max(gap-of-chosen-direction +
labelPadding, 60). -/
def createAnnotationLineLength (node : SceneNode) : ℚ :=
  let res := calculateGapAndDirection node
  match res.minDir with
  | Direction.right => max (res.gapRight + labelPadding) 60
  | Direction.left => max (res.gapLeft + labelPadding) 60
  | Direction.top => max (res.gapTop + labelPadding) 60
  | Direction.bottom => max (res.gapBottom + labelPadding) 60

/-- Wrapper origin per direction, from groupXMap and groupYMap in
createAnnotationGroup (code.js lines 144-161); gw and gh are the measured
width and height of the assembled icon-naming-card frame, which the host
computes from its auto layout. -/
def groupPosMap (d : Direction) (x y w h gw gh : ℚ) : ℚ × ℚ :=
  match d with
  | Direction.right => (x + w, y + h / 2 - gh / 2)
  | Direction.left => (x - gw, y + h / 2 - gh / 2)
  | Direction.top => (x + w / 2 - gw / 2, y - gh)
  | Direction.bottom => (x + w / 2 - gw / 2, y + h)

/-- Final wrapper position chosen by createAnnotationGroup (code.js lines
156-161) for a node, given the measured assembly size. -/
def createAnnotationGroupPos (node : SceneNode) (gw gh : ℚ) : ℚ × ℚ :=
  let res := calculateGapAndDirection node
  groupPosMap res.minDir res.x res.y node.width node.height gw gh

/-- Wrapper origin per direction used by the realign loop (code.js lines
296-301); fw and fh are the current measured size of the inner
icon-naming-card frame of the wrapper. -/
def realignPositions (d : Direction) (x y w h fw fh : ℚ) : ℚ × ℚ :=
  match d with
  | Direction.right => (x + w, y + h / 2 - fh / 2)
  | Direction.left => (x - fw, y + h / 2 - fh / 2)
  | Direction.top => (x + w / 2 - fw / 2, y - fh)
  | Direction.bottom => (x + w / 2 - fw / 2, y + h)

/-- A callout wrapper as seen by the realign loop: its display name, the
iconId plugin data it stores, the measured size of its inner
icon-naming-card frame (none when wrapper.findOne finds no such frame),
and its current position. -/
structure Wrapper where
  name : String
  iconId : String
  cardSize : Option (ℚ × ℚ)
  x : ℚ
  y : ℚ
deriving DecidableEq, Repr

/-- Host context fixed during a realign invocation: the page size used by
the canvas-bounds fallback, and node resolution by identifier
(figma.getNodeByIdAsync restricted to scene nodes, none when the lookup
rejects or the node is gone). -/
structure RealignEnv where
  pageW : ℚ
  pageH : ℚ
  lookup : String → Option SceneNode

/-- One iteration of the realign loop (code.js lines 260-305) for a single
wrapper: wrappers whose name does not start with iconAnnotation- are
skipped; a wrapper whose stored icon no longer resolves is removed (none);
a wrapper without an inner icon-naming-card frame is skipped; otherwise
the wrapper is moved to the recomputed direction-specific position. -/
def realignStep (env : RealignEnv) (w : Wrapper) : Option Wrapper :=
  if ¬ w.name.startsWith ("iconAnnotation-") then some w
  else
    match env.lookup w.iconId with
    | none => none
    | some icon =>
      match w.cardSize with
      | none => some w
      | some fwfh =>
        let dir := realignDir env.pageW env.pageH icon
        let p := realignPositions dir icon.x icon.y icon.width icon.height fwfh.1 fwfh.2
        some { w with x := p.1, y := p.2 }

/-- The whole realign pass over the children of the main group: the loop
iterates over a snapshot copy of the children, so removals do not affect
the iteration. -/
def realignAll (env : RealignEnv) (ws : List Wrapper) : List Wrapper :=
  ws.filterMap (realignStep env)

/-- The realign command (code.js lines 252-308) at the level of the main
group children: when no main group exists the command reports and stops,
otherwise every child wrapper is realigned, removed or skipped. -/
def realignCommand (env : RealignEnv) : Option (List Wrapper) → Option (List Wrapper)
  | none => none
  | some ws => some (realignAll env ws)

/-- Kind of a selected element for the annotate validation (code.js lines
182-205): an instance carries the resolved name of its main component
(none when getMainComponentAsync fails), a component, or any other node. -/
inductive IconKind
  | instNode (mainComponentName : Option String)
  | componentNode
  | otherNode
deriving DecidableEq, Repr

/-- One element of the annotate selection, together with the per-element
host data the build consumes: the generated uuid and the measured size of
the assembled icon-naming-card frame. -/
structure SelItem where
  node : SceneNode
  kind : IconKind
  uuid : String
  asmW : ℚ
  asmH : ℚ
deriving DecidableEq, Repr

/-- ASCII lower-cased code point of a character, for the case-insensitive
regex flag. -/
def lowerNat (c : Char) : Nat :=
  if 65 ≤ c.toNat ∧ c.toNat ≤ 90 then c.toNat + 32 else c.toNat

/-- Case-insensitive anchored prefix match over character lists. -/
def startsWithCI : List Char → List Char → Bool
  | _, [] => true
  | [], _ :: _ => false
  | c :: cs, p :: ps => (lowerNat c == lowerNat p) && startsWithCI cs ps

/-- Embeds the test of the regex (ic_ or ig_ or img_ or icon_ prefix,
case-insensitive, anchored at the start) used at code.js lines 188, 195
and 201. -/
def prefixOk (s : String) : Bool :=
  startsWithCI s.data ("ic_").data || startsWithCI s.data ("ig_").data
    || startsWithCI s.data ("img_").data || startsWithCI s.data ("icon_").data

/-- A wrapper as produced by the annotate workflow: its name, the label
text (the applicable original name), the stored target identifier, the
uuid and the computed position. -/
structure BuiltWrapper where
  name : String
  label : String
  iconId : String
  uuid : String
  x : ℚ
  y : ℚ
deriving DecidableEq, Repr

/-- Builds the wrapper for an accepted element (code.js lines 206-231):
the annotation group is created at the direction-specific position and
named iconAnnotation-uuid. -/
def buildWrapper (item : SelItem) (originalName : String) : BuiltWrapper :=
  let pos := createAnnotationGroupPos item.node item.asmW item.asmH
  { name := "iconAnnotation-" ++ item.uuid
    label := originalName
    iconId := item.node.id
    uuid := item.uuid
    x := pos.1
    y := pos.2 }

/-- Per-element validation and build of the annotate loop (code.js lines
179-232): instances are judged by the name of their main component, other
nodes by their own name; a failing element yields the per-kind warning
message and processing continues with the next element. -/
def processIcon (item : SelItem) : Except String BuiltWrapper :=
  match item.kind with
  | IconKind.instNode comp =>
    match comp with
    | none =>
      Except.error "Instance corresponding component must start with ic_/ig_/img_/icon_."
    | some compName =>
      if ¬ prefixOk compName then
        Except.error "Instance corresponding component must start with ic_/ig_/img_/icon_."
      else Except.ok (buildWrapper item compName)
  | IconKind.componentNode =>
    if ¬ prefixOk item.node.name then
      Except.error "Component name must start with ic_/ig_/img_/icon_."
    else Except.ok (buildWrapper item item.node.name)
  | IconKind.otherNode =>
    if ¬ prefixOk item.node.name then
      Except.error "Layer name must start with ic_/ig_/img_/icon_."
    else Except.ok (buildWrapper item item.node.name)

/-- The annotate loop over the selection: collects the produced wrappers
and the emitted warning messages, in order. -/
def annotateLoop (sel : List SelItem) : List BuiltWrapper × List String :=
  sel.foldl
    (fun acc item =>
      match processIcon item with
      | Except.error m => (acc.1, acc.2 ++ [m])
      | Except.ok w => (acc.1 ++ [w], acc.2))
    ([], [])

/-- The closing message of the annotate command (code.js lines 171-250):
empty selection, zero wrappers produced, or success. -/
def annotateMessage (sel : List SelItem) : String :=
  if sel = [] then "Please select one or more icons."
  else if (annotateLoop sel).1 = [] then "No icons annotated, please check naming."
  else "Annotated icons successfully."

/-- A node at the granularity the anchor-group logic observes: identifier,
kind and display name. -/
structure PNode where
  id : String
  ntype : NodeType
  name : String
deriving DecidableEq, Repr

/-- State the anchor-group logic reads and writes: the immediate children
of the current page in order, the set of all nodes the document can
resolve by identifier (getNodeByIdAsync searches the whole document, not
just the page children), and the page plugin data under mainGroupId (the
empty string when unset, which is falsy in the source). -/
structure PageState where
  children : List PNode
  doc : List PNode
  mainGroupIdData : String
deriving DecidableEq, Repr

/-- The fixed display name of the anchor group. -/
def anchorName : String := "📝 Annotations"

/-- Document-wide resolution by identifier. -/
def getNodeById (st : PageState) (i : String) : Option PNode :=
  st.doc.find? (fun n => n.id == i)

/-- Does a node qualify as the anchor group: a group with the exact
expected display name. -/
def isAnchor (n : PNode) : Bool :=
  n.ntype == NodeType.group && n.name == anchorName

/-- Cache consultation half of getMainGroup (code.js lines 14-25): a
non-empty cached identifier is resolved document-wide and accepted only
when the resolved node is a group with the exact expected display name; a
failed resolution or a failed validation falls through to the page scan. -/
def validCache (st : PageState) : Option PNode :=
  if st.mainGroupIdData ≠ "" then
    match getNodeById st st.mainGroupIdData with
    | some node =>
      if node.ntype = NodeType.group ∧ node.name = anchorName then some node else none
    | none => none
  else none

/-- Page-scan half of getMainGroup (code.js lines 26-32), combined with
the cache consultation: the scan runs only when the cache misses or fails
validation, and a scan hit refreshes the cache. -/
def getMainGroup (st : PageState) : Option PNode × PageState :=
  match validCache st with
  | some node => (some node, st)
  | none =>
    match st.children.find? isAnchor with
    | some node => (some node, { st with mainGroupIdData := node.id })
    | none => (none, st)

/-- Removes from a child list every node whose identifier is listed:
models reparenting nodes out of the page. -/
def removeIds (l : List PNode) (ids : List String) : List PNode :=
  l.filter (fun n => !(ids.contains n.id))

/-- Outcome of the merge phase of the annotate command: the final page
state, the main group that now holds the annotations, and the wrappers
appended into it by this invocation. -/
structure AnnotateOutcome where
  page : PageState
  mainGroup : PNode
  merged : List PNode
deriving DecidableEq, Repr

/-- Embeds the tail of the annotate command (code.js lines 177 and
233-250) at page-state granularity.  getMainGroup runs before the wrapper
loop; each produced wrapper is created as a page child (figma.group with
the page as parent, code.js line 158); then either a brand-new group
named after anchorName absorbs the wrappers (resolver returned none), or
the wrappers are appended into the resolved group; finally
appendChild(mainGroup) moves the group to the end of the page children,
reparenting it to the page when it was not a page child. -/
def annotateFinish (st : PageState) (wrappers : List PNode) (newGroupId : String) :
    AnnotateOutcome :=
  match getMainGroup st with
  | (none, st1) =>
    let g : PNode := { id := newGroupId, ntype := NodeType.group, name := anchorName }
    { page := { children := removeIds (st1.children ++ wrappers) (wrappers.map fun w => w.id) ++ [g],
                doc := (st1.doc ++ wrappers) ++ [g],
                mainGroupIdData := st1.mainGroupIdData }
      mainGroup := g
      merged := wrappers }
  | (some g, st1) =>
    { page := { children := removeIds (st1.children ++ wrappers)
                  ((wrappers.map fun w => w.id) ++ [g.id]) ++ [g],
                doc := st1.doc ++ wrappers,
                mainGroupIdData := st1.mainGroupIdData }
      mainGroup := g
      merged := wrappers }

/-- Number of anchor-qualifying groups among a list of nodes. -/
def anchorCount (l : List PNode) : Nat :=
  l.countP isAnchor

theorem isAnchor_iff (n : PNode) :
    isAnchor n = true ↔ n.ntype = NodeType.group ∧ n.name = anchorName := by
  simp [isAnchor]

theorem isAnchor_false_of_name (n : PNode) (h : n.name ≠ anchorName) :
    isAnchor n = false := by
  simp [isAnchor, h]

theorem validCache_isAnchor (st : PageState) (g : PNode)
    (h : validCache st = some g) : isAnchor g = true := by
  unfold validCache at h
  split at h
  · split at h
    · split at h
      · rw [isAnchor_iff]
        cases h
        assumption
      · exact Option.noConfusion h
    · exact Option.noConfusion h
  · exact Option.noConfusion h

theorem getMainGroup_some (st : PageState) (g : PNode)
    (h : (getMainGroup st).1 = some g) :
    validCache st = some g ∨ st.children.find? isAnchor = some g := by
  unfold getMainGroup at h
  split at h
  · left
    rename_i node heq
    cases h
    exact heq
  · split at h
    · right
      rename_i node heq
      cases h
      exact heq
    · exact Option.noConfusion h

theorem getMainGroup_some_isAnchor (st : PageState) (g : PNode)
    (h : (getMainGroup st).1 = some g) : isAnchor g = true := by
  rcases getMainGroup_some st g h with hc | hf
  · exact validCache_isAnchor st g hc
  · exact List.find?_some hf

theorem getMainGroup_none (st : PageState)
    (h : (getMainGroup st).1 = none) : ∀ n ∈ st.children, isAnchor n = false := by
  unfold getMainGroup at h
  split at h
  · exact Option.noConfusion h
  · split at h
    · exact Option.noConfusion h
    · rename_i heq
      intro n hn
      have := List.find?_eq_none.mp heq n hn
      simpa using this

theorem getMainGroup_children (st : PageState) :
    ((getMainGroup st).2).children = st.children := by
  unfold getMainGroup
  split
  · rfl
  · split <;> rfl

theorem countP_two_mem {α : Type} [DecidableEq α] (p : α → Bool) (l : List α)
    (x y : α) (hx : x ∈ l) (hy : y ∈ l) (hxy : x ≠ y)
    (hpx : p x = true) (hpy : p y = true) : 2 ≤ l.countP p := by
  have hx' : x ∈ l.filter p := List.mem_filter.mpr ⟨hx, hpx⟩
  have hy' : y ∈ l.filter p := List.mem_filter.mpr ⟨hy, hpy⟩
  have hy2 : y ∈ (l.filter p).erase x := (List.mem_erase_of_ne (Ne.symm hxy)).mpr hy'
  have h1 : 0 < ((l.filter p).erase x).length := List.length_pos_of_mem hy2
  have h2 : ((l.filter p).erase x).length + 1 = (l.filter p).length :=
    List.length_erase_add_one hx'
  rw [List.countP_eq_length_filter]
  omega

theorem realignStep_idem (env : RealignEnv) (w w' : Wrapper)
    (h : realignStep env w = some w') : realignStep env w' = some w' := by
  unfold realignStep at h ⊢
  split at h
  · rename_i hname
    cases h
    rw [if_pos hname]
  · rename_i hname
    split at h
    · exact Option.noConfusion h
    · rename_i icon hicon
      split at h
      · rename_i hcard
        cases h
        rw [if_neg hname, hicon, hcard]
      · rename_i fwfh hcard
        cases h
        dsimp only
        rw [if_neg hname, hicon, hcard]

theorem realignAll_idem (env : RealignEnv) (ws : List Wrapper) :
    realignAll env (realignAll env ws) = realignAll env ws := by
  induction ws with
  | nil => rfl
  | cons w ws ih =>
    simp only [realignAll, List.filterMap_cons] at ih ⊢
    cases hw : realignStep env w with
    | none => exact ih
    | some w' =>
      simp only [List.filterMap_cons, realignStep_idem env w w' hw]
      rw [ih]

theorem createAnnotationLineLength_eq (node : SceneNode) :
    createAnnotationLineLength node
      = max ((calculateGapAndDirection node).minGap + labelPadding) 60 := by
  have hstep : createAnnotationLineLength node
      = max (pick4 (calculateGapAndDirection node).minDir
              (calculateGapAndDirection node).gapLeft
              (calculateGapAndDirection node).gapRight
              (calculateGapAndDirection node).gapTop
              (calculateGapAndDirection node).gapBottom
             + labelPadding) 60 := by
    simp only [createAnnotationLineLength]
    cases h : (calculateGapAndDirection node).minDir <;> simp [h, pick4]
  rw [hstep, calc_minDir node, pick4_firstMinDir, ← calc_minGap node]

end IconAnnotator

namespace IconAnnotator

/-- Concrete element of the end-to-end example of the spec: position
100,100, size 24 by 24, inside an outermost frame at 0,0 of size 375 by
100. -/
def c4node : SceneNode :=
  ⟨"icon-c4", "ic_demo", NodeType.rectangle, 100, 100, 24, 24,
    [⟨NodeType.frame, 0, 0, 375, 100⟩]⟩

/-- Concrete element with no frame ancestor. -/
def noFrameNode : SceneNode :=
  ⟨"icon-nf", "ic_x", NodeType.rectangle, 10, 20, 5, 5, []⟩

/-- Concrete element with no frame ancestor on which the two shipped gap
calculators select different directions. -/
def divergeNode : SceneNode :=
  ⟨"icon-dv", "ic_y", NodeType.rectangle, 50, 10, 5, 5, []⟩

/-- Concrete element whose minimal gap is non-negative, exercising the
padding-dominant connector branch. -/
def padNode : SceneNode :=
  ⟨"icon-pd", "ic_p", NodeType.rectangle, 10, 10, 5, 5,
    [⟨NodeType.frame, 0, 0, 100, 100⟩]⟩

/-- Selection item whose layer name fails the prefix check. -/
def barItem : SelItem :=
  ⟨⟨"el-a", "bar", NodeType.rectangle, 1, 1, 2, 2, []⟩, IconKind.otherNode, "u1", 10, 10⟩

/-- Selection item whose layer name passes the prefix check. -/
def icItem : SelItem :=
  ⟨⟨"el-b", "ic_foo", NodeType.rectangle, 1, 1, 2, 2, []⟩, IconKind.otherNode, "u2", 10, 10⟩

/-- Mixed selection: the invalid element first, so the loop must continue
past it to annotate the valid one. -/
def mixedSel : List SelItem := [barItem, icItem]

/-- Anchor-named group among the page children. -/
def c7H : PNode := ⟨"h", NodeType.group, anchorName⟩

/-- Anchor-named group resolvable by identifier but not a page child. -/
def c7G : PNode := ⟨"g", NodeType.group, anchorName⟩

/-- A freshly built wrapper node. -/
def c7W : PNode := ⟨"w1", NodeType.group, "iconAnnotation-1"⟩

/-- Page state whose cached identifier points at the nested group c7G
while another anchor-named group c7H sits among the page children. -/
def c7State : PageState := ⟨[c7H], [c7H, c7G], "g"⟩

/-- Page state with no children, no resolvable nodes and no cache. -/
def c7CleanState : PageState := ⟨[], [], ""⟩

/-- C1: for every element with a resolved bounds context the gap/direction
calculator returns the four signed gaps (left = element x minus container
left, right = container right minus element right edge, top = element y
minus container top, bottom = container bottom minus element bottom edge)
and selects the direction whose gap is smallest under raw signed
comparison; when gaps tie at the minimum the first of the fixed order
left, right, top, bottom wins.  This holds for the annotate path (the
stable sort of the four-entry gaps array) and for the realign path (the
stable sort of the record entries in insertion order left, right, top,
bottom). -/
theorem C1_gap_direction_first_min (node : SceneNode) (pageW pageH : ℚ) :
    (calculateGapAndDirection node).gapLeft = node.x - (boundsOf node).1 ∧
    (calculateGapAndDirection node).gapRight
      = (boundsOf node).2.2.1 - (node.x + node.width) ∧
    (calculateGapAndDirection node).gapTop = node.y - (boundsOf node).2.1 ∧
    (calculateGapAndDirection node).gapBottom
      = (boundsOf node).2.2.2 - (node.y + node.height) ∧
    (calculateGapAndDirection node).minDir
      = firstMinDir (calculateGapAndDirection node).gapLeft
          (calculateGapAndDirection node).gapRight
          (calculateGapAndDirection node).gapTop
          (calculateGapAndDirection node).gapBottom ∧
    (calculateGapAndDirection node).minGap
      = min (min (min (calculateGapAndDirection node).gapLeft
              (calculateGapAndDirection node).gapRight)
            (calculateGapAndDirection node).gapTop)
          (calculateGapAndDirection node).gapBottom ∧
    (realignGaps pageW pageH node).left
      = node.x - (canvasBounds pageW pageH node).1 ∧
    (realignGaps pageW pageH node).right
      = (canvasBounds pageW pageH node).2.2.1 - (node.x + node.width) ∧
    (realignGaps pageW pageH node).top
      = node.y - (canvasBounds pageW pageH node).2.1 ∧
    (realignGaps pageW pageH node).bottom
      = (canvasBounds pageW pageH node).2.2.2 - (node.y + node.height) ∧
    realignDir pageW pageH node
      = firstMinDir (realignGaps pageW pageH node).left
          (realignGaps pageW pageH node).right
          (realignGaps pageW pageH node).top
          (realignGaps pageW pageH node).bottom :=
  ⟨rfl, rfl, rfl, rfl, calc_minDir node, calc_minGap node, rfl, rfl, rfl, rfl,
    realignDir_eq_firstMinDir pageW pageH node⟩

/-- C2: for every annotated element the connector length equals
max(minimum gap + 66, 60); the per-direction recomputation inside each
branch always equals this initial value because the gap of the chosen
direction is the minimum gap; and both branches are reachable: padNode
takes the padding-dominant branch, c4node the minimum-dominant one. -/
theorem C2_connector_length :
    (∀ node : SceneNode,
      createAnnotationLineLength node
        = max ((calculateGapAndDirection node).minGap + labelPadding) 60) ∧
    (createAnnotationLineLength padNode
        = (calculateGapAndDirection padNode).minGap + labelPadding ∧
      60 ≤ (calculateGapAndDirection padNode).minGap + labelPadding) ∧
    (createAnnotationLineLength c4node = 60 ∧
      (calculateGapAndDirection c4node).minGap + labelPadding < 60) := by
  refine ⟨createAnnotationLineLength_eq, ⟨?_, ?_⟩, ⟨?_, ?_⟩⟩
  · have h : (calculateGapAndDirection padNode).minGap = 10 := by
      norm_num [calculateGapAndDirection, boundsOf, getOutermostFrame, padNode,
        sortGaps, insGap]
    rw [createAnnotationLineLength_eq, h]
    norm_num [labelPadding]
  · have h : (calculateGapAndDirection padNode).minGap = 10 := by
      norm_num [calculateGapAndDirection, boundsOf, getOutermostFrame, padNode,
        sortGaps, insGap]
    rw [h]
    norm_num [labelPadding]
  · have h : (calculateGapAndDirection c4node).minGap = -24 := by
      norm_num [calculateGapAndDirection, boundsOf, getOutermostFrame, c4node,
        sortGaps, insGap]
    rw [createAnnotationLineLength_eq, h]
    norm_num [labelPadding]
  · have h : (calculateGapAndDirection c4node).minGap = -24 := by
      norm_num [calculateGapAndDirection, boundsOf, getOutermostFrame, c4node,
        sortGaps, insGap]
    rw [h]
    norm_num [labelPadding]

/-- C3 counterexample: the claim says the realign gap recomputation for an
element with no frame ancestor yields zero gaps in all four directions;
at page size 100 by 200 the element at 10,20 of size 5 by 5 has no frame
ancestor yet gets gaps 10, 85, 20, 175. -/
theorem C3_realign_fallback_counterexample :
    getOutermostFrame noFrameNode = none ∧
    realignGaps 100 200 noFrameNode = ⟨10, 85, 20, 175⟩ ∧
    realignGaps 100 200 noFrameNode ≠ ⟨0, 0, 0, 0⟩ := by
  refine ⟨rfl, ?_, ?_⟩ <;>
    norm_num [realignGaps, canvasBounds, getOutermostFrame, noFrameNode, Gaps4.mk.injEq]

/-- C3 (amended): in the realign workflow, for every wrapper whose target
element has no frame ancestor, the gap recomputation treats the element as
bounded by the canvas (origin 0,0 and the page size), yielding the gaps
x, pageW - (x + w), y, pageH - (y + h) — generally non-zero. -/
theorem C3_realign_fallback_canvas (pageW pageH : ℚ) (node : SceneNode)
    (h : getOutermostFrame node = none) :
    realignGaps pageW pageH node
      = ⟨node.x, pageW - (node.x + node.width),
          node.y, pageH - (node.y + node.height)⟩ := by
  simp [realignGaps, canvasBounds, h]

/-- Witness for C3 (amended) at the concrete no-frame element. -/
theorem C3_realign_fallback_canvas_witness :
    getOutermostFrame noFrameNode = none ∧
    realignGaps 100 200 noFrameNode
      = ⟨noFrameNode.x, 100 - (noFrameNode.x + noFrameNode.width),
          noFrameNode.y, 200 - (noFrameNode.y + noFrameNode.height)⟩ :=
  ⟨rfl, C3_realign_fallback_canvas 100 200 noFrameNode rfl⟩

/-- C4: the element at 100,100 of size 24 by 24 inside the outermost frame
at 0,0 of size 375 by 100 gets gaps left 100, right 251, top 100, bottom
-24; bottom is selected although its gap is negative, and the wrapper is
placed by the bottom-direction formula x + 24/2 - gw/2, y + 24 for any
measured assembly size gw, gh. -/
theorem C4_end_to_end_bottom (gw gh : ℚ) :
    calculateGapAndDirection c4node
      = ⟨Direction.bottom, -24, 100, 100, 100, 251, 100, -24⟩ ∧
    createAnnotationGroupPos c4node gw gh = (100 + 24 / 2 - gw / 2, 100 + 24) := by
  have h : calculateGapAndDirection c4node
      = ⟨Direction.bottom, -24, 100, 100, 100, 251, 100, -24⟩ := by
    norm_num [calculateGapAndDirection, boundsOf, getOutermostFrame, c4node,
      sortGaps, insGap, GapResult.mk.injEq]
  refine ⟨h, ?_⟩
  simp only [createAnnotationGroupPos, h, groupPosMap]
  norm_num [c4node]

/-- C5: the enclosing-container locator walks the parent chain upward,
stopping at the canvas root, and returns the outermost frame ancestor
walked through (the last frame remembered), not the innermost; it returns
the absence signal exactly when the chain contains no frame, in
particular when the element sits directly on the canvas. -/
theorem C5_outermost_frame (node : SceneNode) :
    getOutermostFrame node
      = (node.ancestors.filter fun a => a.ntype == NodeType.frame).getLast? ∧
    (getOutermostFrame node = none
      ↔ (node.ancestors.filter fun a => a.ntype == NodeType.frame) = []) := by
  have heq : getOutermostFrame node
      = ((node.ancestors.filter fun a => a.ntype == NodeType.frame).getLast?).elim
          none some :=
    frameFold_eq_getLast node.ancestors none
  have hid : ∀ o : Option Anc, o.elim (none : Option Anc) some = o := by
    intro o; cases o <;> rfl
  rw [heq, hid]
  exact ⟨rfl, List.getLast?_eq_none_iff⟩

/-- C6: the wrapper origin is computed from the four direction-specific
formulas — right (x + w, y + h/2 - gh/2), left (x - gw, y + h/2 - gh/2),
top (x + w/2 - gw/2, y - gh), bottom (x + w/2 - gw/2, y + h) — and the
realign workflow uses exactly the same four formulas as the annotate-time
builder, with the measured card size substituted. -/
theorem C6_position_formulas (x y w h gw gh : ℚ) :
    groupPosMap Direction.right x y w h gw gh = (x + w, y + h / 2 - gh / 2) ∧
    groupPosMap Direction.left x y w h gw gh = (x - gw, y + h / 2 - gh / 2) ∧
    groupPosMap Direction.top x y w h gw gh = (x + w / 2 - gw / 2, y - gh) ∧
    groupPosMap Direction.bottom x y w h gw gh = (x + w / 2 - gw / 2, y + h) ∧
    (∀ d : Direction, realignPositions d x y w h gw gh = groupPosMap d x y w h gw gh) ∧
    (∀ node : SceneNode, createAnnotationGroupPos node gw gh
        = groupPosMap (calculateGapAndDirection node).minDir node.x node.y
            node.width node.height gw gh) :=
  ⟨rfl, rfl, rfl, rfl, fun d => by cases d <;> rfl, fun node => rfl⟩

end IconAnnotator

namespace IconAnnotator

/-- C7 counterexample: the claim asserts that when at most one
anchor-named group exists among the page children before an annotate
invocation, at most one exists after it; but when the cached identifier
resolves to a correctly named group that is not a page child while
another anchor-named group sits among the children, the final
appendChild reparents the resolved group to the page and two remain. -/
theorem C7_anchor_duplication_counterexample :
    anchorCount c7State.children = 1 ∧
    (getMainGroup c7State).1 = some c7G ∧
    c7G ∉ c7State.children ∧
    anchorCount (annotateFinish c7State [c7W] "fresh-group").page.children = 2 := by
  decide

/-- C7 (amended): the resolver returns a node only when it is a group with
the exact anchor display name; the annotate workflow reuses the resolved
group and creates a new anchor group only when the resolver returned
absence; and provided the resolver result, when present, is one of the
page's immediate children, an invocation starting with at most one
anchor-named group among the page children ends with at most one, the
resulting main group being an anchor-named page child holding all the new
wrappers. -/
theorem C7_anchor_group_unique (st : PageState) (wrappers : List PNode)
    (newGroupId : String)
    (hw : ∀ w ∈ wrappers, w.name ≠ anchorName)
    (hch : ∀ g, (getMainGroup st).1 = some g → g ∈ st.children)
    (hcount : anchorCount st.children ≤ 1) :
    (∀ g, (getMainGroup st).1 = some g
        → g.ntype = NodeType.group ∧ g.name = anchorName) ∧
    (∀ g, (getMainGroup st).1 = some g
        → (annotateFinish st wrappers newGroupId).mainGroup = g) ∧
    anchorCount (annotateFinish st wrappers newGroupId).page.children ≤ 1 ∧
    isAnchor (annotateFinish st wrappers newGroupId).mainGroup = true ∧
    (annotateFinish st wrappers newGroupId).mainGroup
      ∈ (annotateFinish st wrappers newGroupId).page.children ∧
    (annotateFinish st wrappers newGroupId).merged = wrappers := by
  have hanchor : ∀ g, (getMainGroup st).1 = some g
      → g.ntype = NodeType.group ∧ g.name = anchorName :=
    fun g hg => (isAnchor_iff g).mp (getMainGroup_some_isAnchor st g hg)
  refine ⟨hanchor, ?_⟩
  rcases hgm : getMainGroup st with ⟨res, st1⟩
  have hst1 : st1.children = st.children := by
    have h := getMainGroup_children st
    rw [hgm] at h
    exact h
  cases res with
  | none =>
    have hres : (getMainGroup st).1 = none := by rw [hgm]
    have hnone : ∀ n ∈ st.children, isAnchor n = false := getMainGroup_none st hres
    simp only [annotateFinish, hgm]
    refine ⟨?_, ?_, ?_, ?_, trivial⟩
    · intro g hg
      exact Option.noConfusion hg
    · rw [anchorCount, List.countP_append]
      have h1 : (removeIds (st1.children ++ wrappers)
          (wrappers.map fun w => w.id)).countP isAnchor = 0 := by
        rw [removeIds, List.countP_filter]
        apply List.countP_eq_zero.mpr
        intro a ha
        rcases List.mem_append.mp ha with hcl | hwr
        · have hfa : isAnchor a = false := hnone a (hst1 ▸ hcl)
          simp [hfa]
        · simp [isAnchor_false_of_name a (hw a hwr)]
      rw [h1]
      simp [List.countP_cons, isAnchor]
    · simp [isAnchor]
    · simp
  | some g =>
    have hres : (getMainGroup st).1 = some g := by rw [hgm]
    have hanc : isAnchor g = true := getMainGroup_some_isAnchor st g hres
    have hmem : g ∈ st.children := hch g hres
    simp only [annotateFinish, hgm]
    refine ⟨?_, ?_, hanc, ?_, trivial⟩
    · intro g' hg'
      exact Option.some.inj hg'
    · rw [anchorCount, List.countP_append]
      have h1 : (removeIds (st1.children ++ wrappers)
          ((wrappers.map fun w => w.id) ++ [g.id])).countP isAnchor = 0 := by
        rw [removeIds, List.countP_filter]
        apply List.countP_eq_zero.mpr
        intro a ha
        rcases List.mem_append.mp ha with hcl | hwr
        · by_cases haa : isAnchor a = true
          · have hag : a = g := by
              by_contra hne
              have h2le := countP_two_mem isAnchor st.children a g
                (hst1 ▸ hcl) hmem hne haa hanc
              have hle : (2 : Nat) ≤ 1 := le_trans h2le hcount
              omega
            rw [hag]
            have hctn : (((wrappers.map fun w => w.id) ++ [g.id]).contains g.id) = true := by
              simp
            simp [hctn]
          · simp [haa]
        · simp [isAnchor_false_of_name a (hw a hwr)]
      rw [h1]
      simp [List.countP_cons, hanc]
    · simp

/-- Witness for C7 (amended): starting from an empty page with an unset
cache, annotating one wrapper leaves at most one anchor-named group. -/
theorem C7_anchor_group_unique_witness :
    (∀ w ∈ ([c7W] : List PNode), w.name ≠ anchorName) ∧
    anchorCount c7CleanState.children ≤ 1 ∧
    anchorCount (annotateFinish c7CleanState [c7W] "fresh-group").page.children ≤ 1 :=
  ⟨by decide, by decide,
    (C7_anchor_group_unique c7CleanState [c7W] "fresh-group" (by decide)
      (fun g hg => Option.noConfusion hg) (by decide)).2.2.1⟩

/-- C8: the realign workflow is idempotent on positions: with the anchor
group present and no intervening change to the resolution environment,
running realign twice leaves exactly the wrappers, and the coordinates,
produced by the first run. -/
theorem C8_realign_idempotent (env : RealignEnv) (ws : List Wrapper) :
    realignCommand env (realignCommand env (some ws)) = realignCommand env (some ws) := by
  simp only [realignCommand]
  rw [realignAll_idem]

/-- C9: a selection with one element failing the prefix check and one
passing it produces exactly one wrapper labelled by the valid name, emits
exactly one per-element rejection warning, continues past the rejected
element (the invalid one comes first), and closes with the success
message; the no-icons message is reported exactly when zero wrappers were
produced. -/
theorem C9_mixed_selection :
    (annotateLoop mixedSel).1.length = 1 ∧
    (annotateLoop mixedSel).2 = ["Layer name must start with ic_/ig_/img_/icon_."] ∧
    (annotateLoop mixedSel).1.map (fun w => w.label) = ["ic_foo"] ∧
    annotateMessage mixedSel = "Annotated icons successfully." ∧
    (∀ sel : List SelItem, sel ≠ [] →
      (annotateMessage sel = "No icons annotated, please check naming."
        ↔ (annotateLoop sel).1 = [])) := by
  refine ⟨by decide, by decide, by decide, by decide, ?_⟩
  intro sel hne
  unfold annotateMessage
  rw [if_neg hne]
  split_ifs with h
  · simp [h]
  · simp only [h, iff_false]
    decide

/-- Witness for C9 at the concrete mixed selection. -/
theorem C9_mixed_selection_witness :
    mixedSel ≠ [] ∧
    (annotateMessage mixedSel = "No icons annotated, please check naming."
      ↔ (annotateLoop mixedSel).1 = []) :=
  ⟨by decide, C9_mixed_selection.2.2.2.2 mixedSel (by decide)⟩

/-- C10: the two shipped variants of calculateGapAndDirection agree on
every element with a frame ancestor; without one, the compiled build
falls back to the bounds of the element itself, so all four gaps are
zero, the stable tie-break selects left and the connector length is
max(0 + 66, 60) = 66, while the TypeScript source falls back to the
canvas bounds and on the concrete divergeNode selects top instead, so the
two variants are not extensionally equal. -/
theorem C10_variant_refinement (pageW pageH : ℚ) (node : SceneNode) :
    (∀ o, getOutermostFrame node = some o
        → calculateGapAndDirectionTS pageW pageH node = calculateGapAndDirection node) ∧
    (getOutermostFrame node = none
        → calculateGapAndDirection node
            = ⟨Direction.left, 0, node.x, node.y, 0, 0, 0, 0⟩
          ∧ createAnnotationLineLength node = 66) ∧
    getOutermostFrame divergeNode = none ∧
    (calculateGapAndDirectionTS 100 100 divergeNode).minDir = Direction.top ∧
    (calculateGapAndDirection divergeNode).minDir = Direction.left ∧
    calculateGapAndDirectionTS 100 100 divergeNode ≠ calculateGapAndDirection divergeNode := by
  have hts : (calculateGapAndDirectionTS 100 100 divergeNode).minDir = Direction.top := by
    norm_num [calculateGapAndDirectionTS, canvasBounds, getOutermostFrame, divergeNode,
      sortGaps, insGap]
  have hjs : (calculateGapAndDirection divergeNode).minDir = Direction.left := by
    norm_num [calculateGapAndDirection, boundsOf, getOutermostFrame, divergeNode,
      sortGaps, insGap]
  refine ⟨?_, ?_, rfl, hts, hjs, ?_⟩
  · intro o h
    simp only [calculateGapAndDirectionTS, calculateGapAndDirection, canvasBounds,
      boundsOf, h]
  · intro h
    have hc : calculateGapAndDirection node
        = ⟨Direction.left, 0, node.x, node.y, 0, 0, 0, 0⟩ := by
      simp [calculateGapAndDirection, boundsOf, h, sortGaps, insGap, GapResult.mk.injEq]
    refine ⟨hc, ?_⟩
    rw [createAnnotationLineLength_eq, hc]
    norm_num [labelPadding]
  · intro hcontra
    rw [hcontra, hjs] at hts
    exact Direction.noConfusion hts

/-- Witness for C10: the frame-ancestor agreement at the concrete c4node
and the zero-gap fallback at the concrete noFrameNode. -/
theorem C10_variant_refinement_witness :
    (getOutermostFrame c4node = some ⟨NodeType.frame, 0, 0, 375, 100⟩ ∧
      calculateGapAndDirectionTS 500 400 c4node = calculateGapAndDirection c4node) ∧
    (getOutermostFrame noFrameNode = none ∧
      calculateGapAndDirection noFrameNode
        = ⟨Direction.left, 0, noFrameNode.x, noFrameNode.y, 0, 0, 0, 0⟩ ∧
      createAnnotationLineLength noFrameNode = 66) :=
  ⟨⟨rfl, (C10_variant_refinement 500 400 c4node).1 ⟨NodeType.frame, 0, 0, 375, 100⟩ rfl⟩,
   ⟨rfl, (C10_variant_refinement 0 0 noFrameNode).2.1 rfl⟩⟩

end IconAnnotator
